import Mathlib

/-!
Verification of the inventory-calculation core of `src/app.py`
(EOQ calculator): `calculate_eoq`, `calculate_total_inventory_cost`,
`calculate_orders_per_year`, `calculate_safety_stock`,
`calculate_reorder_point`, `format_rupiah`, plus the sensitivity sweep
described in the specification.

Python floats are modelled as `FVal`: a real number, positive or negative
infinity, or NaN.  Real-valued inputs that the code never branches on
through non-finite values are modelled directly as `ℝ`.
-/

open Classical

/-- Model of an IEEE-754 double as used by the program: a finite real
value, one of the two infinities, or NaN. -/
inductive FVal where
  | fin : ℝ → FVal
  | posInf : FVal
  | negInf : FVal
  | nan : FVal

/-- `v <= 0` in Python semantics: finite values compare numerically,
`-inf <= 0` is true, `inf <= 0` and `nan <= 0` are false. -/
def FVal.le0 : FVal → Prop
  | .fin x => x ≤ 0
  | .posInf => False
  | .negInf => True
  | .nan => False

/-- `np.isfinite(v)`. -/
def FVal.isFinite : FVal → Prop
  | .fin _ => True
  | _ => False

/-- The real payload of a finite value (junk `0` on non-finite values,
only ever used under a finiteness guard). -/
def FVal.toReal : FVal → ℝ
  | .fin x => x
  | _ => 0

/-- `calculate_eoq(D, S, H)` from `src/app.py`:
`if H == 0: return float('inf')` else `np.sqrt((2 * D * S) / H)`. -/
noncomputable def calculate_eoq (D S H : ℝ) : FVal :=
  if H = 0 then .posInf
  else .fin (Real.sqrt ((2 * D * S) / H))

/-- `calculate_total_inventory_cost(D, S, H, Q)` from `src/app.py`:
`if Q <= 0 or not np.isfinite(Q)` return `(inf, inf, inf)`, else return
`((D/Q)*S, (Q/2)*H, ordering + holding)`. -/
noncomputable def calculate_total_inventory_cost (D S H : ℝ) (Q : FVal) :
    FVal × FVal × FVal :=
  if Q.le0 ∨ ¬ Q.isFinite then (.posInf, .posInf, .posInf)
  else
    let q := Q.toReal
    (.fin ((D / q) * S), .fin ((q / 2) * H), .fin ((D / q) * S + (q / 2) * H))

/-- `calculate_orders_per_year(D, Q)` from `src/app.py`:
`if Q <= 0 or not np.isfinite(Q)` return `inf`, else `D / Q`. -/
noncomputable def calculate_orders_per_year (D : ℝ) (Q : FVal) : FVal :=
  if Q.le0 ∨ ¬ Q.isFinite then .posInf
  else .fin (D / Q.toReal)

/-- `calculate_safety_stock(z, sigma, L)` from `src/app.py`:
`if lead_time_days <= 0 or std_dev_daily_demand < 0: return 0.0`, else
`z_score * std_dev_daily_demand * np.sqrt(lead_time_days)`. -/
noncomputable def calculate_safety_stock (z σ L : ℝ) : ℝ :=
  if L ≤ 0 ∨ σ < 0 then 0
  else z * σ * Real.sqrt L

/-- `calculate_reorder_point(avg, L, ss)` from `src/app.py`:
`if lead_time_days < 0 or avg_daily_demand < 0: return 0.0`, else
`(avg_daily_demand * lead_time_days) + safety_stock`. -/
noncomputable def calculate_reorder_point (avg L ss : ℝ) : ℝ :=
  if L < 0 ∨ avg < 0 then 0
  else avg * L + ss

/-- C1: for positive `D, S, H`, `calculate_eoq D S H` is exactly
`sqrt (2*D*S/H)`, and for every `D, S`, `calculate_eoq D S 0` is positive
infinity (a value, not an exception). -/
theorem calculate_eoq_spec (D S H : ℝ) (hD : 0 < D) (hS : 0 < S) (hH : 0 < H) :
    calculate_eoq D S H = .fin (Real.sqrt ((2 * D * S) / H)) ∧
    ∀ D2 S2 : ℝ, calculate_eoq D2 S2 0 = .posInf := by
  constructor
  · simp [calculate_eoq, ne_of_gt hH]
  · intro D2 S2
    simp [calculate_eoq]

theorem calculate_eoq_spec_witness :
    calculate_eoq 1000 50 5 = .fin (Real.sqrt ((2 * 1000 * 50) / 5)) ∧
    calculate_eoq 7 (-3) 0 = .posInf := by
  have h := calculate_eoq_spec 1000 50 5 (by norm_num) (by norm_num) (by norm_num)
  exact ⟨h.1, h.2 7 (-3)⟩

/-- C2: `calculate_total_inventory_cost` returns the all-infinity triple
whenever `Q <= 0` or `Q` is not finite, and for finite `Q = q > 0` it
returns exactly `((D/q)*S, (q/2)*H, (D/q)*S + (q/2)*H)`. -/
theorem calculate_total_inventory_cost_spec (D S H : ℝ) (Q : FVal) :
    ((Q.le0 ∨ ¬ Q.isFinite) →
      calculate_total_inventory_cost D S H Q = (.posInf, .posInf, .posInf)) ∧
    (∀ q : ℝ, Q = .fin q → 0 < q →
      calculate_total_inventory_cost D S H Q =
        (.fin ((D / q) * S), .fin ((q / 2) * H),
         .fin ((D / q) * S + (q / 2) * H))) := by
  constructor
  · intro hg
    simp [calculate_total_inventory_cost, hg]
  · intro q hq hpos
    subst hq
    have hg : ¬ (FVal.le0 (.fin q) ∨ ¬ FVal.isFinite (.fin q)) := by
      simp [FVal.le0, FVal.isFinite, not_le.mpr hpos]
    simp [calculate_total_inventory_cost, hg, FVal.toReal]

theorem calculate_total_inventory_cost_spec_witness :
    calculate_total_inventory_cost 1000 50 5 .nan = (.posInf, .posInf, .posInf) ∧
    calculate_total_inventory_cost 1000 50 5 (.fin 200) =
      (.fin ((1000 / 200) * 50), .fin ((200 / 2) * 5),
       .fin ((1000 / 200) * 50 + (200 / 2) * 5)) :=
  ⟨(calculate_total_inventory_cost_spec 1000 50 5 .nan).1
      (Or.inr (by simp [FVal.isFinite])),
   (calculate_total_inventory_cost_spec 1000 50 5 (.fin 200)).2 200 rfl
      (by norm_num)⟩

/-- C7: `calculate_orders_per_year D Q` returns `D / q` for finite
`Q = q > 0`, and positive infinity when `Q <= 0` or `Q` is not finite. -/
theorem calculate_orders_per_year_spec (D : ℝ) (Q : FVal) :
    (∀ q : ℝ, Q = .fin q → 0 < q →
      calculate_orders_per_year D Q = .fin (D / q)) ∧
    ((Q.le0 ∨ ¬ Q.isFinite) → calculate_orders_per_year D Q = .posInf) := by
  constructor
  · intro q hq hpos
    subst hq
    have hg : ¬ (FVal.le0 (.fin q) ∨ ¬ FVal.isFinite (.fin q)) := by
      simp [FVal.le0, FVal.isFinite, not_le.mpr hpos]
    simp [calculate_orders_per_year, hg, FVal.toReal]
  · intro hg
    simp [calculate_orders_per_year, hg]

theorem calculate_orders_per_year_spec_witness :
    calculate_orders_per_year 1000 (.fin 200) = .fin (1000 / 200) ∧
    calculate_orders_per_year 1000 (.fin (-3)) = .posInf :=
  ⟨(calculate_orders_per_year_spec 1000 (.fin 200)).1 200 rfl (by norm_num),
   (calculate_orders_per_year_spec 1000 (.fin (-3))).2
      (Or.inl (by norm_num [FVal.le0]))⟩

/-- C5: `calculate_safety_stock z σ L` equals `z * σ * sqrt L` when
`L > 0` and `σ ≥ 0`, equals `0` when `L ≤ 0` or `σ < 0`, and in
particular equals `0` at `L = 0` for all `z, σ`. -/
theorem calculate_safety_stock_spec (z σ L : ℝ) :
    (0 < L → 0 ≤ σ → calculate_safety_stock z σ L = z * σ * Real.sqrt L) ∧
    ((L ≤ 0 ∨ σ < 0) → calculate_safety_stock z σ L = 0) ∧
    calculate_safety_stock z σ 0 = 0 := by
  refine ⟨?_, ?_, ?_⟩
  · intro hL hσ
    have hg : ¬ (L ≤ 0 ∨ σ < 0) := by
      push_neg
      exact ⟨hL, hσ⟩
    simp [calculate_safety_stock, hg]
  · intro hg
    simp [calculate_safety_stock, hg]
  · simp [calculate_safety_stock]

theorem calculate_safety_stock_spec_witness :
    calculate_safety_stock 2 5 14 = 2 * 5 * Real.sqrt 14 ∧
    calculate_safety_stock 2 5 (-1) = 0 ∧
    calculate_safety_stock 2 5 0 = 0 :=
  ⟨(calculate_safety_stock_spec 2 5 14).1 (by norm_num) (by norm_num),
   (calculate_safety_stock_spec 2 5 (-1)).2.1 (Or.inl (by norm_num)),
   (calculate_safety_stock_spec 2 5 0).2.2⟩

/-- C6: `calculate_reorder_point avg L ss` equals exactly `avg * L + ss`
for `avg ≥ 0`, `L ≥ 0` and any `ss`, and equals `0` whenever `L < 0` or
`avg < 0`. -/
theorem calculate_reorder_point_spec (avg L ss : ℝ) :
    (0 ≤ avg → 0 ≤ L → calculate_reorder_point avg L ss = avg * L + ss) ∧
    ((L < 0 ∨ avg < 0) → calculate_reorder_point avg L ss = 0) := by
  constructor
  · intro ha hL
    have hg : ¬ (L < 0 ∨ avg < 0) := by
      push_neg
      exact ⟨hL, ha⟩
    simp [calculate_reorder_point, hg]
  · intro hg
    simp [calculate_reorder_point, hg]

theorem calculate_reorder_point_spec_witness :
    calculate_reorder_point 3 7 30 = 3 * 7 + 30 ∧
    calculate_reorder_point 3 (-7) 30 = 0 :=
  ⟨(calculate_reorder_point_spec 3 7 30).1 (by norm_num) (by norm_num),
   (calculate_reorder_point_spec 3 (-7) 30).2 (Or.inl (by norm_num))⟩

/-- C10: `calculate_safety_stock` is non-negative whenever `z ≥ 0` (for
all `σ, L`), but it does not clamp at zero: at `z = -1, σ = 1, L = 1` it
returns a strictly negative value. -/
theorem calculate_safety_stock_sign (z σ L : ℝ) :
    (0 ≤ z → 0 ≤ calculate_safety_stock z σ L) ∧
    calculate_safety_stock (-1) 1 1 < 0 := by
  constructor
  · intro hz
    unfold calculate_safety_stock
    by_cases hg : L ≤ 0 ∨ σ < 0
    · simp [hg]
    · have h2 := hg
      push_neg at h2
      rw [if_neg hg]
      exact mul_nonneg (mul_nonneg hz h2.2) (Real.sqrt_nonneg L)
  · have hg : ¬ ((1:ℝ) ≤ 0 ∨ (1:ℝ) < 0) := by norm_num
    simp [calculate_safety_stock, hg, Real.sqrt_one]

theorem calculate_safety_stock_sign_witness :
    0 ≤ calculate_safety_stock 2 5 14 ∧ calculate_safety_stock (-1) 1 1 < 0 :=
  ⟨(calculate_safety_stock_sign 2 5 14).1 (by norm_num),
   (calculate_safety_stock_sign 2 5 14).2⟩

/-- C3: at `Q = calculate_eoq D S H` with `D, S, H > 0`, the ordering-cost
component of `calculate_total_inventory_cost` equals its holding-cost
component exactly (over the reals). -/
theorem eoq_balances_components (D S H : ℝ) (hD : 0 < D) (hS : 0 < S)
    (hH : 0 < H) :
    (calculate_total_inventory_cost D S H (calculate_eoq D S H)).1 =
      (calculate_total_inventory_cost D S H (calculate_eoq D S H)).2.1 := by
  have hq : 0 < Real.sqrt ((2 * D * S) / H) :=
    Real.sqrt_pos.mpr (by positivity)
  set q := Real.sqrt ((2 * D * S) / H) with hqdef
  have heoq : calculate_eoq D S H = .fin q := by
    simp [calculate_eoq, ne_of_gt hH, hqdef]
  have hg : ¬ (FVal.le0 (.fin q) ∨ ¬ FVal.isFinite (.fin q)) := by
    simp [FVal.le0, FVal.isFinite, not_le.mpr hq]
  rw [heoq]
  simp only [calculate_total_inventory_cost, if_neg hg, FVal.toReal]
  congr 1
  have hsq : q * q = (2 * D * S) / H := Real.mul_self_sqrt (by positivity)
  have key : q * q * H = 2 * D * S := by
    rw [hsq]
    field_simp
  have hqne : q ≠ 0 := ne_of_gt hq
  field_simp
  nlinarith [key]

theorem eoq_balances_components_witness :
    (calculate_total_inventory_cost 1000 50 5 (calculate_eoq 1000 50 5)).1 =
      (calculate_total_inventory_cost 1000 50 5 (calculate_eoq 1000 50 5)).2.1 :=
  eoq_balances_components 1000 50 5 (by norm_num) (by norm_num) (by norm_num)

/-- C4: for fixed `D, S, H > 0` the ordering-cost component of
`calculate_total_inventory_cost` is strictly decreasing and the
holding-cost component strictly increasing in `Q` over `(0, ∞)`. -/
theorem cost_components_monotone (D S H q₁ q₂ : ℝ) (hD : 0 < D) (hS : 0 < S)
    (hH : 0 < H) (h₁ : 0 < q₁) (h₁₂ : q₁ < q₂) :
    ((calculate_total_inventory_cost D S H (.fin q₂)).1).toReal <
      ((calculate_total_inventory_cost D S H (.fin q₁)).1).toReal ∧
    ((calculate_total_inventory_cost D S H (.fin q₁)).2.1).toReal <
      ((calculate_total_inventory_cost D S H (.fin q₂)).2.1).toReal := by
  have h₂ : 0 < q₂ := h₁.trans h₁₂
  have hg₁ : ¬ (FVal.le0 (.fin q₁) ∨ ¬ FVal.isFinite (.fin q₁)) := by
    simp [FVal.le0, FVal.isFinite, not_le.mpr h₁]
  have hg₂ : ¬ (FVal.le0 (.fin q₂) ∨ ¬ FVal.isFinite (.fin q₂)) := by
    simp [FVal.le0, FVal.isFinite, not_le.mpr h₂]
  simp only [calculate_total_inventory_cost, if_neg hg₁, if_neg hg₂,
    FVal.toReal]
  constructor
  · exact mul_lt_mul_of_pos_right
      ((div_lt_div_iff_of_pos_left hD h₂ h₁).mpr h₁₂) hS
  · exact mul_lt_mul_of_pos_right (by linarith) hH

theorem cost_components_monotone_witness :
    ((calculate_total_inventory_cost 1000 50 5 (.fin 300)).1).toReal <
      ((calculate_total_inventory_cost 1000 50 5 (.fin 200)).1).toReal ∧
    ((calculate_total_inventory_cost 1000 50 5 (.fin 200)).2.1).toReal <
      ((calculate_total_inventory_cost 1000 50 5 (.fin 300)).2.1).toReal :=
  cost_components_monotone 1000 50 5 200 300 (by norm_num) (by norm_num)
    (by norm_num) (by norm_num) (by norm_num)

/-- Which of the three EOQ parameters a sensitivity sweep varies. -/
inductive SweepParam where
  | annualDemand : SweepParam
  | orderingCost : SweepParam
  | holdingCost : SweepParam

/-- One row of a sensitivity sweep: the sampled parameter value, the EOQ
at that value, and the total cost at that EOQ. -/
structure SensitivityRow where
  variedParameterValue : ℝ
  eoq : FVal
  totalCost : FVal

/-- Modelled from the spec: a single sensitivity-sweep row.  The
`sensitivitySweep` operation is described in the specification but absent
from `src/app.py`; the spec says each row recomputes EOQ and total cost
via `computeEOQ`/`computeCostBreakdown` with the varied parameter
substituted, and that a non-positive sampled holding cost reports EOQ and
total cost as infinite rather than invoking the division. -/
noncomputable def sweepRow (p : SweepParam) (D S H v : ℝ) : SensitivityRow :=
  match p with
  | .annualDemand =>
      ⟨v, calculate_eoq v S H,
       (calculate_total_inventory_cost v S H (calculate_eoq v S H)).2.2⟩
  | .orderingCost =>
      ⟨v, calculate_eoq D v H,
       (calculate_total_inventory_cost D v H (calculate_eoq D v H)).2.2⟩
  | .holdingCost =>
      if v ≤ 0 then ⟨v, .posInf, .posInf⟩
      else
        ⟨v, calculate_eoq D S v,
         (calculate_total_inventory_cost D S v (calculate_eoq D S v)).2.2⟩

/-- Modelled from the spec: `sensitivitySweep` varies exactly one of
`{annualDemand, orderingCost, holdingCost}` linearly across
`sampleCount` points spanning `[base*0.5, base*1.5]` inclusive, holding
the other two parameters fixed (`sensitivitySweep` is described in the
specification but absent from `src/app.py`). -/
noncomputable def sensitivitySweep (p : SweepParam) (D S H : ℝ)
    (sampleCount : ℕ) : List SensitivityRow :=
  (List.range sampleCount).map fun (i : ℕ) =>
    let base := match p with
      | .annualDemand => D
      | .orderingCost => S
      | .holdingCost => H
    sweepRow p D S H
      (base * 0.5 + (base * 1.5 - base * 0.5) * (i : ℝ) / ((sampleCount : ℝ) - 1))

/-- The EOQ formula argument is strictly monotone in the demand slot. -/
theorem sqrt_eoq_lt {S H a b : ℝ} (hS : 0 < S) (hH : 0 < H) (ha : 0 ≤ a)
    (hab : a < b) :
    Real.sqrt ((2 * a * S) / H) < Real.sqrt ((2 * b * S) / H) :=
  Real.sqrt_lt_sqrt (by positivity) (by gcongr)

/-- C8: `sensitivitySweep` over `annualDemand` with base `1000` and 10
samples (fixed positive `S, H`) produces 10 rows whose first varied value
is exactly `500`, whose last is exactly `1500`, and whose EOQ column is
strictly increasing from row to row. -/
theorem sensitivity_sweep_demand_spec (S H : ℝ) (hS : 0 < S) (hH : 0 < H) :
    (sensitivitySweep .annualDemand 1000 S H 10).length = 10 ∧
    ((sensitivitySweep .annualDemand 1000 S H 10).map
        SensitivityRow.variedParameterValue).head? = some 500 ∧
    ((sensitivitySweep .annualDemand 1000 S H 10).map
        SensitivityRow.variedParameterValue).getLast? = some 1500 ∧
    List.Chain' (fun a b => a < b)
      ((sensitivitySweep .annualDemand 1000 S H 10).map
        fun r => FVal.toReal (SensitivityRow.eoq r)) := by
  have hH' : H ≠ 0 := ne_of_gt hH
  have hrange : List.range 10 = [0, 1, 2, 3, 4, 5, 6, 7, 8, 9] := by rfl
  refine ⟨?_, ?_, ?_, ?_⟩
  · unfold sensitivitySweep
    rw [List.length_map, List.length_range]
  · unfold sensitivitySweep
    rw [List.map_map, List.head?_map, hrange]
    simp only [List.head?_cons, Option.map_some, Function.comp, sweepRow]
    norm_num
  · unfold sensitivitySweep
    rw [List.map_map, List.getLast?_map, hrange]
    have hlast : List.getLast? [0, 1, 2, 3, 4, 5, 6, 7, 8, 9] = some 9 := rfl
    rw [hlast]
    simp only [Option.map_some, Function.comp, sweepRow]
    norm_num
  · unfold sensitivitySweep
    rw [List.map_map, List.chain'_map]
    rw [show (10 : ℕ) = Nat.succ 9 from rfl, List.chain'_range_succ]
    intro m hm
    simp only [Function.comp, sweepRow, calculate_eoq, if_neg hH',
      FVal.toReal]
    have hm0 : (0 : ℝ) ≤ (m : ℝ) := Nat.cast_nonneg m
    refine sqrt_eoq_lt hS hH ?_ ?_
    · norm_num
      positivity
    · push_cast
      norm_num
      linarith

theorem sensitivity_sweep_demand_spec_witness :
    (sensitivitySweep .annualDemand 1000 50 5 10).length = 10 ∧
    ((sensitivitySweep .annualDemand 1000 50 5 10).map
        SensitivityRow.variedParameterValue).head? = some 500 ∧
    ((sensitivitySweep .annualDemand 1000 50 5 10).map
        SensitivityRow.variedParameterValue).getLast? = some 1500 ∧
    List.Chain' (fun a b => a < b)
      ((sensitivitySweep .annualDemand 1000 50 5 10).map
        fun r => FVal.toReal (SensitivityRow.eoq r)) :=
  sensitivity_sweep_demand_spec 50 5 (by norm_num) (by norm_num)

/-- Digits grouped three at a time (input is the reversed digit list of a
number, as produced while building a thousands-separated rendering). -/
def chunk3 : List Char → List (List Char)
  | [] => []
  | [a] => [[a]]
  | [a, b] => [[a, b]]
  | a :: b :: c :: rest => [a, b, c] :: chunk3 rest

/-- The decimal rendering of a natural number with `,` as thousands
separator, as produced by Python's `f"{n:,}"`. -/
def natGrouped (n : ℕ) : String :=
  String.mk (((chunk3 (Nat.repr n).data.reverse).intersperse [',']).flatten.reverse)

/-- The decimal rendering of an integer with thousands separators, as
produced by Python's `f"{n:,}"`. -/
def intGrouped (n : ℤ) : String :=
  if n < 0 then "-" ++ natGrouped n.natAbs else natGrouped n.natAbs

/-- The rendering of a real value with thousands separators and two
decimal places, as produced by Python's `f"{value:,.2f}"` (the exact IEEE
tie-breaking of that format is a floating-point rendering detail; it is
modelled here by rounding `value * 100` to the nearest integer). -/
noncomputable def realTwoDec (x : ℝ) : String :=
  let c : ℤ := round (x * 100)
  (if x < 0 then "-" else "") ++ natGrouped (c.natAbs / 100) ++ "." ++
    (if c.natAbs % 100 < 10 then "0" else "") ++ Nat.repr (c.natAbs % 100)

/-- `format_rupiah(value)` from `src/app.py`: non-finite values render as
the fixed token `"Tak Terhingga"`; a finite value equal to its integer
truncation (`value == int(value)`, equivalently `value = ⌊value⌋`) renders
as `f"Rp {int(value):,}"`, and any other finite value as
`f"Rp {value:,.2f}"`. -/
noncomputable def format_rupiah (v : FVal) : String :=
  if ¬ v.isFinite then "Tak Terhingga"
  else if v.toReal = (⌊v.toReal⌋ : ℝ) then "Rp " ++ intGrouped ⌊v.toReal⌋
  else "Rp " ++ realTwoDec v.toReal

/-- A string starting with `"Rp "` is never the non-finite token. -/
theorem rp_append_ne (s : String) : "Rp " ++ s ≠ "Tak Terhingga" := by
  intro h
  have h2 : ("Rp " ++ s).data = "Tak Terhingga".data := by rw [h]
  rw [String.data_append] at h2
  simp [String.data] at h2

/-- C9: `format_rupiah` returns the one fixed token `"Tak Terhingga"` on
every non-finite value, and on every finite value returns a numeric
string of the form `"Rp " ++ _`, never the non-finite token. -/
theorem format_rupiah_spec (v : FVal) :
    (¬ v.isFinite → format_rupiah v = "Tak Terhingga") ∧
    (v.isFinite →
      format_rupiah v ≠ "Tak Terhingga" ∧
      ∃ s : String, format_rupiah v = "Rp " ++ s) := by
  constructor
  · intro hnf
    simp [format_rupiah, hnf]
  · intro hf
    unfold format_rupiah
    rw [if_neg (not_not.mpr hf)]
    by_cases hi : v.toReal = (⌊v.toReal⌋ : ℝ)
    · rw [if_pos hi]
      exact ⟨rp_append_ne _, _, rfl⟩
    · rw [if_neg hi]
      exact ⟨rp_append_ne _, _, rfl⟩

theorem format_rupiah_spec_witness :
    format_rupiah .posInf = "Tak Terhingga" ∧
    (format_rupiah (.fin 500) ≠ "Tak Terhingga" ∧
      ∃ s : String, format_rupiah (.fin 500) = "Rp " ++ s) :=
  ⟨(format_rupiah_spec .posInf).1 (by simp [FVal.isFinite]),
   (format_rupiah_spec (.fin 500)).2 (by simp [FVal.isFinite])⟩
